import Mathlib

/-!
Shallow embedding of the asynchronous CSV aggregation engine in
`backend/services/csv_processor.go` (package `services`, with the job record
type from `backend/models/models.go`).

Modelling conventions:
  * A CSV input file is modelled at record granularity as a
    `List (List String)`: the sequence of records the Go `encoding/csv`
    reader would yield, before its `FieldsPerRecord` check.  The Go code sets
    `reader.FieldsPerRecord = 3`, so every `Read` (the header read included)
    returns `ErrFieldCount` for a record whose field count is not 3; the
    model checks `r.length = 3` at each read.
  * Go `int` is 64-bit; `departmentTotals[department] += sales` is two's
    complement addition, modelled by `wrap64`.  `strconv.Atoi` is modelled by
    `atoi`, including its `ErrRange` rejection of values outside the signed
    64-bit range.
  * The two file-system fallible operations (`os.Open` of the input and the
    result write in `writeResultCSV`) are driven by boolean oracles
    `openFails` / `writeFails`; `os.Remove(filePath)` on the success path is
    recorded in the `inputRemoved` field of the outcome.
  * The job registry (`p.jobs`, a map from job id to a *pointer* to a
    `ProcessingResult`, guarded by `jobsMutex`) is modelled as an association
    list; each mutex-guarded mutation in the source is one `Op`.  Because the
    Go map stores pointers, `GetJobStatus` is modelled as returning the job
    id as a reference (`derefJob` reads through it at any later time), which
    is exactly the aliasing behaviour of returning `*models.ProcessingResult`.
-/

/-! ### 64-bit integer arithmetic (Go `int` on a 64-bit platform) -/

def int64Max : Int := 9223372036854775807

def int64Min : Int := -9223372036854775808

/-- Two's-complement reduction of an integer into the signed 64-bit range,
the result of a Go `int` arithmetic operation. -/
def wrap64 (z : Int) : Int :=
  (z + 9223372036854775808) % 18446744073709551616 - 9223372036854775808

/-! ### `strconv.Atoi` -/

/-- Left-to-right decimal accumulation over a character list; fails on the
first non-digit character (`strconv.ParseInt` base-10 digit loop). -/
def digitsVal : List Char → Nat → Option Nat
  | [], acc => some acc
  | c :: rest, acc =>
    if c.isDigit then digitsVal rest (acc * 10 + (c.toNat - 48)) else none

/-- Value of a non-empty all-digit character list; `none` on an empty list or
any non-digit character. -/
def digitsToNat : List Char → Option Nat
  | [] => none
  | cs => digitsVal cs 0

/-- Model of Go `strconv.Atoi`: an optional single leading sign followed by
one or more decimal digits; values outside the signed 64-bit integer range
are rejected (`ErrRange`), as are empty strings and any other characters. -/
def atoi (s : String) : Option Int :=
  match s.data with
  | [] => none
  | '+' :: rest => (digitsToNat rest).bind fun n =>
      if (n : Int) ≤ int64Max then some (n : Int) else none
  | '-' :: rest => (digitsToNat rest).bind fun n =>
      if (n : Int) ≤ 9223372036854775808 then some (-(n : Int)) else none
  | cs => (digitsToNat cs).bind fun n =>
      if (n : Int) ≤ int64Max then some (n : Int) else none

/-! ### Row helpers (used in theorem statements) -/

/-- Category (department) field of a record: `record[0]`. -/
def deptOf (r : List String) : String := r.getD 0 ""

/-- Count (sales) field of a record parsed as an integer, defaulting to 0:
used only to state exact sums over rows whose count is known to parse. -/
def countOf (r : List String) : Int := (atoi (r.getD 2 "")).getD 0

/-- Whether some data row carries the given category. -/
def hasDept (data : List (List String)) (c : String) : Bool :=
  data.any fun r => deptOf r == c

/-- Exact (unbounded) integer sum of the counts of the rows with category
`c`. -/
def exactSum (data : List (List String)) (c : String) : Int :=
  ((data.filter fun r => deptOf r == c).map countOf).sum

/-! ### The aggregation loop of `processCSVFile` (lines 93-123) -/

/-- Transient state of the streaming loop: the `departmentTotals` map
(modelled as an association list in key-insertion order), `recordCount`, and
the list of progress checkpoint values already written to the registry. -/
structure AggState where
  departmentTotals : List (String × Int)
  recordCount : Nat
  progressEvents : List Nat
deriving Repr, DecidableEq

/-- `departmentTotals[department] += sales`: a Go map read of a missing key
yields the zero value, and the addition is 64-bit two's complement. -/
def addSale : List (String × Int) → String → Int → List (String × Int)
  | [], department, sales => [(department, wrap64 (0 + sales))]
  | (d, t) :: rest, department, sales =>
    if d = department then (d, wrap64 (t + sales)) :: rest
    else (d, t) :: addSale rest department sales

/-- Outcome of the record loop: a fatal `ErrFieldCount` read error (carrying
the checkpoints already emitted), or normal EOF with the final state. -/
inductive LoopResult where
  | formatError (progressEvents : List Nat)
  | done (st : AggState)
deriving Repr, DecidableEq

/-- The loop body of `processCSVFile`: read a record (ErrFieldCount if its
arity is not 3 — fatal), skip it if the count field does not parse, otherwise
accumulate and checkpoint progress every 1000 accepted records
(`batchSize`). -/
def processRows : List (List String) → AggState → LoopResult
  | [], st => .done st
  | record :: rest, st =>
    if record.length = 3 then
      match atoi (record.getD 2 "") with
      | none => processRows rest st
      | some sales =>
        processRows rest
          ⟨addSale st.departmentTotals (record.getD 0 "") sales,
           st.recordCount + 1,
           if (st.recordCount + 1) % 1000 = 0 then
             st.progressEvents ++ [st.recordCount + 1]
           else st.progressEvents⟩
    else .formatError st.progressEvents

/-! ### `writeResultCSV` and the top-level `processCSVFile` -/

/-- Content of the result artifact produced by `writeResultCSV`: the fixed
header row, then one row per category in the iteration order of the model's
totals list. -/
def resultCSV (departmentTotals : List (String × Int)) : List (List String) :=
  ["Department Name", "Total Number of Sales"] ::
    departmentTotals.map fun p => [p.1, toString p.2]

/-- Terminal outcome of a background run: the completion update (carrying the
final totals and accepted-record count written to the registry) or the error
update with its message. -/
inductive Terminal where
  | completed (departmentTotals : List (String × Int)) (recordsAccepted : Nat)
  | failed (msg : String)
deriving Repr, DecidableEq

/-- Registry status string written by the terminal update. -/
def finalStatusOf : Terminal → String
  | .completed _ _ => "completed"
  | .failed _ => "error"

/-- Observable outcome of one background run of `processCSVFile`. -/
structure RunResult where
  terminal : Terminal
  progressEvents : List Nat
  inputRemoved : Bool
  artifact : Option (List (List String))
deriving Repr, DecidableEq

/-- Model of `processCSVFile` (lines 67-144): open the input, read and
discard the header (any read error, EOF and ErrFieldCount included, is
fatal), run the aggregation loop, write the result artifact, mark the job
completed and remove the input file; every error path leaves the input file
in place and writes no artifact. -/
def processCSVFile (openFails writeFails : Bool) (rows : List (List String)) :
    RunResult :=
  if openFails then ⟨.failed "Failed to open file", [], false, none⟩
  else
    match rows with
    | [] => ⟨.failed "Failed to read header", [], false, none⟩
    | header :: data =>
      if header.length = 3 then
        match processRows data ⟨[], 0, []⟩ with
        | .formatError events => ⟨.failed "Error reading CSV", events, false, none⟩
        | .done st =>
          if writeFails then
            ⟨.failed "Failed to write result", st.progressEvents, false, none⟩
          else
            ⟨.completed st.departmentTotals st.recordCount, st.progressEvents,
              true, some (resultCSV st.departmentTotals)⟩
      else ⟨.failed "Failed to read header", [], false, none⟩

/-! ### The job registry (`p.jobs` with `jobsMutex`) -/

/-- Model of `models.ProcessingResult`; `processingTime` is opaque (a Nat). -/
structure ProcessingResult where
  jobID : String
  status : String
  downloadURL : String
  processingTime : Nat
  departmentCount : Nat
  totalRecords : Nat
  errorMsg : String
deriving Repr, DecidableEq

/-- The fresh record stored by `ProcessCSVAsync`: status `"processing"`, all
other fields at their zero values. -/
def newJob (id : String) : ProcessingResult :=
  ⟨id, "processing", "", 0, 0, 0, ""⟩

/-- The registry map, an association list from job id to the stored record. -/
abbrev Registry := List (String × ProcessingResult)

/-- Map lookup `p.jobs[jobID]`. -/
def regLookup : Registry → String → Option ProcessingResult
  | [], _ => none
  | (j, r) :: rest, id => if j = id then some r else regLookup rest id

/-- Map assignment `p.jobs[jobID] = result` (replaces an existing entry). -/
def regInsert : Registry → String → ProcessingResult → Registry
  | [], id, v => [(id, v)]
  | (j, r) :: rest, id, v =>
    if j = id then (id, v) :: rest else (j, r) :: regInsert rest id v

/-- Guarded in-place mutation of an existing entry; a no-op when the id is
absent (the `if result, exists := p.jobs[jobID]; exists` pattern). -/
def regUpdate : Registry → String → (ProcessingResult → ProcessingResult) →
    Registry
  | [], _, _ => []
  | (j, r) :: rest, id, f =>
    if j = id then (j, f r) :: rest else (j, r) :: regUpdate rest id f

/-- The four mutex-guarded registry mutations in the source: job creation in
`ProcessCSVAsync`, `updateJobProgress`, `updateJobError`, and the completion
update inline in `processCSVFile` (lines 134-140). -/
inductive Op where
  | create (id : String)
  | progress (id : String) (recordsProcessed : Nat)
  | markError (id : String) (msg : String)
  | markCompleted (id : String) (url : String) (elapsed : Nat)
      (departmentCount : Nat) (totalRecords : Nat)
deriving Repr, DecidableEq

/-- Effect of one guarded mutation on the registry. -/
def applyOp (R : Registry) : Op → Registry
  | .create id => regInsert R id (newJob id)
  | .progress id n => regUpdate R id fun r => { r with totalRecords := n }
  | .markError id msg =>
      regUpdate R id fun r => { r with status := "error", errorMsg := msg }
  | .markCompleted id url elapsed dc tr =>
      regUpdate R id fun r =>
        { r with status := "completed", downloadURL := url,
                 processingTime := elapsed, departmentCount := dc,
                 totalRecords := tr }

/-- Registry reached from `R` after a sequence of guarded mutations. -/
def applyOps (ops : List Op) (R : Registry) : Registry :=
  ops.foldl applyOp R

/-- Ids issued by `create` operations (each one the return value of a
`ProcessCSVAsync` call). -/
def createdIds (ops : List Op) : List String :=
  ops.filterMap fun op =>
    match op with
    | .create id => some id
    | _ => none

/-- Model of `GetJobStatus`: under the read lock it fetches the map value —
a pointer to the stored record — and returns it with the presence flag.  The
pointer to the (unique) cell of a job is represented by the job id itself. -/
def GetJobStatus (R : Registry) (id : String) : Option String × Bool :=
  match regLookup R id with
  | some _ => (some id, true)
  | none => (none, false)

/-- Reading the record a returned pointer refers to, at a (possibly later)
registry state: the caller dereferences `*models.ProcessingResult`. -/
def derefJob (R : Registry) (ref : String) : Option ProcessingResult :=
  regLookup R ref

/-! ### Helper accessors used in theorem statements -/

/-- Whether a terminal outcome is the error update. -/
def Terminal.isFailed : Terminal → Bool
  | .failed _ => true
  | .completed _ _ => false

/-- Totals carried by a completed terminal outcome (empty on failure). -/
def finalTotals (res : RunResult) : List (String × Int) :=
  match res.terminal with
  | .completed t _ => t
  | .failed _ => []

/-- Association-list lookup into the `departmentTotals` map. -/
def lookupTotals : List (String × Int) → String → Option Int
  | [], _ => none
  | (d, t) :: rest, c => if d = c then some t else lookupTotals rest c

/-! ### Registry lookup lemmas -/

lemma regLookup_regInsert (R : Registry) (id id2 : String) (v : ProcessingResult) :
    regLookup (regInsert R id v) id2 =
      if id = id2 then some v else regLookup R id2 := by
  induction R with
  | nil => simp [regInsert, regLookup]
  | cons hd rest ih =>
    obtain ⟨j, r⟩ := hd
    by_cases hj : j = id
    · subst hj
      simp only [regInsert, if_pos rfl, regLookup]
      by_cases h2 : j = id2 <;> simp [regLookup, h2]
    · simp only [regInsert, if_neg hj, regLookup]
      by_cases h2 : j = id2
      · subst h2
        have hne : id ≠ j := fun h => hj h.symm
        simp [hne]
      · simp [h2, ih]

lemma regLookup_regUpdate (R : Registry) (id id2 : String)
    (f : ProcessingResult → ProcessingResult) :
    regLookup (regUpdate R id f) id2 =
      if id = id2 then (regLookup R id2).map f else regLookup R id2 := by
  induction R with
  | nil => simp [regUpdate, regLookup]
  | cons hd rest ih =>
    obtain ⟨j, r⟩ := hd
    by_cases hj : j = id
    · subst hj
      simp only [regUpdate, if_pos rfl, regLookup]
      by_cases h2 : j = id2 <;> simp [regLookup, h2]
    · simp only [regUpdate, if_neg hj, regLookup]
      by_cases h2 : j = id2
      · subst h2
        have hne : id ≠ j := fun h => hj h.symm
        simp [hne]
      · simp [h2, ih]

lemma regLookup_applyOps_of_not_created (ops : List Op) (R : Registry)
    (id : String) (hnc : id ∉ createdIds ops) (hnone : regLookup R id = none) :
    regLookup (applyOps ops R) id = none := by
  induction ops generalizing R with
  | nil => exact hnone
  | cons op rest ih =>
    have hnc2 : id ∉ createdIds rest := by
      intro hmem
      exact hnc (by
        cases op <;> simp [createdIds, List.filterMap_cons] at hmem ⊢ <;>
          simp_all [createdIds])
    have hstep : regLookup (applyOp R op) id = none := by
      cases op with
      | create id2 =>
        have hne : id2 ≠ id := by
          intro h
          subst h
          exact hnc (by simp [createdIds, List.filterMap_cons])
        simp [applyOp, regLookup_regInsert, hne, hnone]
      | progress id2 n =>
        simp only [applyOp, regLookup_regUpdate]
        by_cases h2 : id2 = id <;> simp [h2, hnone]
      | markError id2 msg =>
        simp only [applyOp, regLookup_regUpdate]
        by_cases h2 : id2 = id <;> simp [h2, hnone]
      | markCompleted id2 url e dc tr =>
        simp only [applyOp, regLookup_regUpdate]
        by_cases h2 : id2 = id <;> simp [h2, hnone]
    exact ih (applyOp R op) hnc2 hstep

/-! ### Loop lemmas for the fatal row-shape error -/

lemma processRows_formatError_of_badrow (data : List (List String))
    (st : AggState) (hbad : ∃ r ∈ data, r.length ≠ 3) :
    ∃ E, processRows data st = .formatError E := by
  induction data generalizing st with
  | nil => simp at hbad
  | cons r rest ih =>
    by_cases h3 : r.length = 3
    · have hbad2 : ∃ r2 ∈ rest, r2.length ≠ 3 := by
        obtain ⟨r2, hmem, hne⟩ := hbad
        rcases List.mem_cons.mp hmem with heq | hmem2
        · exact absurd h3 (heq ▸ hne)
        · exact ⟨r2, hmem2, hne⟩
      simp only [processRows, if_pos h3]
      cases hat : atoi (r.getD 2 "") with
      | none => exact ih _ hbad2
      | some sales => exact ih _ hbad2
    · exact ⟨st.progressEvents, by simp [processRows, h3]⟩

/-! ### Claim theorems -/

/-- C2. A data row whose field count is not exactly 3, anywhere in the file,
makes the whole job reach the failed terminal state (registry status
`"error"`) with an error message; nothing is aggregated into a result: no
artifact is produced — and the input file is left in place — even when rows
before the malformed one were well-formed. -/
theorem badRowShape_failsWholeJob (o w : Bool) (header : List String)
    (data : List (List String)) (hbad : ∃ r ∈ data, r.length ≠ 3) :
    (processCSVFile o w (header :: data)).terminal.isFailed = true ∧
    finalStatusOf (processCSVFile o w (header :: data)).terminal = "error" ∧
    (processCSVFile o w (header :: data)).artifact = none ∧
    (processCSVFile o w (header :: data)).inputRemoved = false := by
  cases o with
  | true => exact ⟨rfl, rfl, rfl, rfl⟩
  | false =>
    by_cases hh : header.length = 3
    · obtain ⟨E, hE⟩ := processRows_formatError_of_badrow data ⟨[], 0, []⟩ hbad
      simp [processCSVFile, hh, hE, Terminal.isFailed, finalStatusOf]
    · simp [processCSVFile, hh, Terminal.isFailed, finalStatusOf]

/-- C2 witness: a concrete file with a well-formed first data row and a
2-field second row fails with no artifact and the input retained. -/
theorem badRowShape_failsWholeJob_witness :
    (∃ r ∈ [["Sales", "2024-01-01", "100"], ["Marketing", "55"]],
       List.length r ≠ 3) ∧
    ((processCSVFile false false
        [["Department Name", "Date", "Number of Sales"],
         ["Sales", "2024-01-01", "100"],
         ["Marketing", "55"]]).terminal.isFailed = true ∧
     finalStatusOf (processCSVFile false false
        [["Department Name", "Date", "Number of Sales"],
         ["Sales", "2024-01-01", "100"],
         ["Marketing", "55"]]).terminal = "error" ∧
     (processCSVFile false false
        [["Department Name", "Date", "Number of Sales"],
         ["Sales", "2024-01-01", "100"],
         ["Marketing", "55"]]).artifact = none ∧
     (processCSVFile false false
        [["Department Name", "Date", "Number of Sales"],
         ["Sales", "2024-01-01", "100"],
         ["Marketing", "55"]]).inputRemoved = false) :=
  ⟨by decide,
   badRowShape_failsWholeJob false false
     ["Department Name", "Date", "Number of Sales"]
     [["Sales", "2024-01-01", "100"], ["Marketing", "55"]] (by decide)⟩

/-- C8. The input file is removed exactly on the success path: for every
oracle outcome and every input, `processCSVFile` removes the input file if
and only if the job reaches the completed terminal state; every failure path
(open failure, header failure, row-shape failure, write failure) leaves it
in place. -/
theorem inputRemoved_iff_completed (o w : Bool) (rows : List (List String)) :
    (processCSVFile o w rows).inputRemoved = true ↔
      finalStatusOf (processCSVFile o w rows).terminal = "completed" := by
  cases o with
  | true => simp [processCSVFile, finalStatusOf]
  | false =>
    cases rows with
    | nil => simp [processCSVFile, finalStatusOf]
    | cons header data =>
      by_cases hh : header.length = 3
      · cases hp : processRows data ⟨[], 0, []⟩ with
        | formatError E => simp [processCSVFile, hh, hp, finalStatusOf]
        | done st =>
          cases w <;> simp [processCSVFile, hh, hp, finalStatusOf]
      · simp [processCSVFile, hh, finalStatusOf]

/-- C10. An empty input file (no records at all): the header read returns
end of input, which is treated as a header-read failure, so the job
terminates with the `"Failed to read header"` message in the `"error"`
status and writes no output artifact (and keeps the input file). -/
theorem emptyFile_headerReadFails (w : Bool) :
    processCSVFile false w [] =
      ⟨.failed "Failed to read header", [], false, none⟩ ∧
    finalStatusOf (processCSVFile false w []).terminal = "error" := by
  cases w <;> exact ⟨rfl, rfl⟩

/-- C5 counterexample: a header row with 2 fields makes the job fail (the
reader's `FieldsPerRecord = 3` check applies to the header read too), even
though the rest of the file is perfectly well-formed — refuting the claim
that no property of the header row can cause a failure. -/
theorem headerFieldCount_counterexample :
    (processCSVFile false false
        [["Department Name", "Date"],
         ["Sales", "2024-01-01", "100"]]).terminal
      = Terminal.failed "Failed to read header" ∧
    finalStatusOf (processCSVFile false false
        [["Department Name", "Date"],
         ["Sales", "2024-01-01", "100"]]).terminal = "error" := by
  exact ⟨rfl, rfl⟩

/-- C5 amended: the first row is consumed and discarded without any
inspection of its field contents — two files differing only in a 3-field
header process identically — but the header must itself have exactly 3
fields: a header with any other field count fails the job with the
header-read error. -/
theorem headerDiscarded_amended (o w : Bool) (h1 h2 h3 : List String)
    (data : List (List String)) (hh1 : h1.length = 3) (hh2 : h2.length = 3)
    (hh3 : h3.length ≠ 3) :
    processCSVFile o w (h1 :: data) = processCSVFile o w (h2 :: data) ∧
    (processCSVFile false w (h3 :: data)).terminal =
      Terminal.failed "Failed to read header" := by
  refine ⟨?_, by simp [processCSVFile, hh3]⟩
  cases o with
  | true => rfl
  | false => simp [processCSVFile, hh1, hh2]

/-- C5 witness: two concrete 3-field headers over the same data give the
same run, and a concrete 2-field header fails with the header-read error. -/
theorem headerDiscarded_amended_witness :
    (["Department Name", "Date", "Number of Sales"] : List String).length = 3 ∧
    (["anything", "at", "all"] : List String).length = 3 ∧
    (["too", "short"] : List String).length ≠ 3 ∧
    (processCSVFile false false
        (["Department Name", "Date", "Number of Sales"] ::
          [["Sales", "2024-01-01", "100"]]) =
      processCSVFile false false
        (["anything", "at", "all"] :: [["Sales", "2024-01-01", "100"]]) ∧
     (processCSVFile false false
        (["too", "short"] :: [["Sales", "2024-01-01", "100"]])).terminal =
       Terminal.failed "Failed to read header") :=
  ⟨by decide, by decide, by decide,
   headerDiscarded_amended false false
     ["Department Name", "Date", "Number of Sales"]
     ["anything", "at", "all"] ["too", "short"]
     [["Sales", "2024-01-01", "100"]] (by decide) (by decide) (by decide)⟩

/-! ### Registry status invariant -/

lemma status_inv_applyOp (R : Registry) (op : Op)
    (hR : ∀ id r, regLookup R id = some r →
      r.status = "processing" ∨ r.status = "completed" ∨ r.status = "error") :
    ∀ id r, regLookup (applyOp R op) id = some r →
      r.status = "processing" ∨ r.status = "completed" ∨ r.status = "error" := by
  intro id r hr
  cases op with
  | create id2 =>
    rw [applyOp, regLookup_regInsert] at hr
    by_cases h2 : id2 = id
    · rw [if_pos h2] at hr
      cases hr
      exact Or.inl rfl
    · rw [if_neg h2] at hr
      exact hR id r hr
  | progress id2 n =>
    rw [applyOp, regLookup_regUpdate] at hr
    by_cases h2 : id2 = id
    · rw [if_pos h2] at hr
      cases hold : regLookup R id with
      | none => rw [hold] at hr; cases hr
      | some r0 =>
        rw [hold] at hr
        cases hr
        exact hR id r0 hold
    · rw [if_neg h2] at hr
      exact hR id r hr
  | markError id2 msg =>
    rw [applyOp, regLookup_regUpdate] at hr
    by_cases h2 : id2 = id
    · rw [if_pos h2] at hr
      cases hold : regLookup R id with
      | none => rw [hold] at hr; cases hr
      | some r0 =>
        rw [hold] at hr
        cases hr
        exact Or.inr (Or.inr rfl)
    · rw [if_neg h2] at hr
      exact hR id r hr
  | markCompleted id2 url e dc tr =>
    rw [applyOp, regLookup_regUpdate] at hr
    by_cases h2 : id2 = id
    · rw [if_pos h2] at hr
      cases hold : regLookup R id with
      | none => rw [hold] at hr; cases hr
      | some r0 =>
        rw [hold] at hr
        cases hr
        exact Or.inr (Or.inl rfl)
    · rw [if_neg h2] at hr
      exact hR id r hr

lemma status_inv_applyOps (ops : List Op) (R : Registry)
    (hR : ∀ id r, regLookup R id = some r →
      r.status = "processing" ∨ r.status = "completed" ∨ r.status = "error") :
    ∀ id r, regLookup (applyOps ops R) id = some r →
      r.status = "processing" ∨ r.status = "completed" ∨ r.status = "error" := by
  induction ops generalizing R with
  | nil => exact hR
  | cons op rest ih => exact ih (applyOp R op) (status_inv_applyOp R op hR)

/-- C6. A job is created with status `"processing"`, and in every registry
state reachable from the empty registry by the four guarded mutations
(creation, progress, error, completion), every stored job's status is one of
the three literal strings `"processing"`, `"completed"`, `"error"`. -/
theorem status_threeValued_invariant (ops : List Op) (id : String)
    (r : ProcessingResult) (hr : regLookup (applyOps ops []) id = some r) :
    (newJob id).status = "processing" ∧
    (r.status = "processing" ∨ r.status = "completed" ∨ r.status = "error") := by
  refine ⟨rfl, ?_⟩
  exact status_inv_applyOps ops [] (by intro id2 r2 h; cases h) id r hr

/-- C6 witness: after one creation the stored job exists with a status in
the three-value set. -/
theorem status_threeValued_invariant_witness :
    regLookup (applyOps [Op.create "job-1"] []) "job-1" = some (newJob "job-1") ∧
    ((newJob "job-1").status = "processing" ∧
     ((newJob "job-1").status = "processing" ∨
      (newJob "job-1").status = "completed" ∨
      (newJob "job-1").status = "error")) :=
  ⟨by decide, status_threeValued_invariant [Op.create "job-1"] "job-1"
    (newJob "job-1") (by decide)⟩

/-- C9. Querying an id that no create (submit) operation ever issued returns
not-found — `GetJobStatus` yields `(none, false)` — no matter which and how
many other jobs exist in the registry or which mutations targeted other (or
even this) id. -/
theorem query_unknownId_notFound (ops : List Op) (id : String)
    (hnc : id ∉ createdIds ops) :
    GetJobStatus (applyOps ops []) id = (none, false) := by
  have h := regLookup_applyOps_of_not_created ops [] id hnc rfl
  simp [GetJobStatus, h]

/-- C9 witness: with one existing job `"a"` and even a stray mutation
targeting the never-issued id `"b"`, querying `"b"` returns not-found. -/
theorem query_unknownId_notFound_witness :
    "b" ∉ createdIds [Op.create "a", Op.progress "b" 5] ∧
    GetJobStatus (applyOps [Op.create "a", Op.progress "b" 5] []) "b" =
      (none, false) :=
  ⟨by decide,
   query_unknownId_notFound [Op.create "a", Op.progress "b" 5] "b" (by decide)⟩

/-- C4 counterexample: `GetJobStatus` returns the pointer stored in the jobs
map, not a copy.  For the concrete job `"j"`, the record observed through
the reference returned while the job was `"processing"` reads
`"completed"` after the completion update — a later mutation of the job
changes what the already-returned result shows, so it is not an immutable
point-in-time snapshot. -/
theorem snapshot_counterexample :
    GetJobStatus (applyOps [Op.create "j"] []) "j" = (some "j", true) ∧
    (derefJob (applyOps [Op.create "j"] []) "j").map ProcessingResult.status
      = some "processing" ∧
    (derefJob (applyOps [Op.create "j",
        Op.markCompleted "j" "/download/result_j.csv" 5 2 7] []) "j").map
        ProcessingResult.status = some "completed" ∧
    derefJob (applyOps [Op.create "j",
        Op.markCompleted "j" "/download/result_j.csv" 5 2 7] []) "j" ≠
      derefJob (applyOps [Op.create "j"] []) "j" := by
  exact ⟨rfl, rfl, rfl, by decide⟩

/-- C4 amended: `GetJobStatus` returns the presence flag correctly together
with a live reference to the job's registry cell (the stored pointer):
dereferencing that reference after any further sequence of registry
operations yields the job's then-current record — the result aliases later
mutations of the job instead of being an immutable copy. -/
theorem getJobStatus_liveReference_amended (R : Registry) (id ref : String)
    (ops : List Op) (href : (GetJobStatus R id).1 = some ref) :
    (GetJobStatus R id).2 = (regLookup R id).isSome ∧
    derefJob (applyOps ops R) ref = regLookup (applyOps ops R) id := by
  unfold GetJobStatus at href ⊢
  cases hl : regLookup R id with
  | none => rw [hl] at href; cases href
  | some r0 =>
    rw [hl] at href
    have : ref = id := by
      have h2 := href
      simp at h2
      exact h2.symm
    subst this
    exact ⟨rfl, rfl⟩

/-- C4 amended witness: for the concrete job `"j"`, after the completion
update the reference returned earlier dereferences to exactly the current
registry record of `"j"`. -/
theorem getJobStatus_liveReference_amended_witness :
    (GetJobStatus (applyOps [Op.create "j"] []) "j").1 = some "j" ∧
    ((GetJobStatus (applyOps [Op.create "j"] []) "j").2 =
       (regLookup (applyOps [Op.create "j"] []) "j").isSome ∧
     derefJob (applyOps [Op.markCompleted "j" "u" 5 2 7]
         (applyOps [Op.create "j"] [])) "j" =
       regLookup (applyOps [Op.markCompleted "j" "u" 5 2 7]
         (applyOps [Op.create "j"] [])) "j") :=
  ⟨by decide,
   getJobStatus_liveReference_amended (applyOps [Op.create "j"] []) "j" "j"
     [Op.markCompleted "j" "u" 5 2 7] (by decide)⟩

/-! ### Progress checkpoint lemmas -/

lemma wrap64_add_left (a b : Int) : wrap64 (wrap64 a + b) = wrap64 (a + b) := by
  unfold wrap64; omega

lemma processRows_events_spec (data : List (List String)) (st st2 : AggState)
    (h : processRows data st = .done st2) :
    st.recordCount ≤ st2.recordCount ∧
    (∀ v, v ∈ st2.progressEvents ↔
       v ∈ st.progressEvents ∨
         (v % 1000 = 0 ∧ st.recordCount < v ∧ v ≤ st2.recordCount)) ∧
    ((∀ v ∈ st.progressEvents, v ≤ st.recordCount) →
      st.progressEvents.Pairwise (· < ·) →
      (st2.progressEvents.Pairwise (· < ·) ∧
       ∀ v ∈ st2.progressEvents, v ≤ st2.recordCount)) := by
  induction data generalizing st with
  | nil =>
    simp only [processRows] at h
    cases h
    refine ⟨le_refl _, fun v => ⟨Or.inl, ?_⟩, fun hb hp => ⟨hp, hb⟩⟩
    rintro (hv | ⟨_, h1, h2⟩)
    · exact hv
    · omega
  | cons record rest ih =>
    simp only [processRows] at h
    by_cases h3 : record.length = 3
    · rw [if_pos h3] at h
      cases hat : atoi (record.getD 2 "") with
      | none =>
        rw [hat] at h
        obtain ⟨hle, hmem, hsort⟩ := ih st h
        exact ⟨hle, hmem, hsort⟩
      | some sales =>
        rw [hat] at h
        obtain ⟨hle, hmem, hsort⟩ := ih _ h
        simp only at hle hmem hsort
        refine ⟨by omega, ?_, ?_⟩
        · intro v
          rw [hmem v]
          by_cases hm : (st.recordCount + 1) % 1000 = 0
          · rw [if_pos hm]
            simp only [List.mem_append, List.mem_singleton]
            constructor
            · rintro ((hv | hv) | ⟨hm2, hlt, hle2⟩)
              · exact Or.inl hv
              · exact Or.inr ⟨by omega, by omega, by omega⟩
              · exact Or.inr ⟨hm2, by omega, hle2⟩
            · rintro (hv | ⟨hm2, hlt, hle2⟩)
              · exact Or.inl (Or.inl hv)
              · by_cases hveq : v = st.recordCount + 1
                · exact Or.inl (Or.inr hveq)
                · exact Or.inr ⟨hm2, by omega, hle2⟩
          · rw [if_neg hm]
            constructor
            · rintro (hv | ⟨hm2, hlt, hle2⟩)
              · exact Or.inl hv
              · exact Or.inr ⟨hm2, by omega, hle2⟩
            · rintro (hv | ⟨hm2, hlt, hle2⟩)
              · exact Or.inl hv
              · exact Or.inr ⟨hm2, by omega, hle2⟩
        · intro hb hp
          apply hsort
          · intro v hv
            by_cases hm : (st.recordCount + 1) % 1000 = 0
            · rw [if_pos hm] at hv
              rcases List.mem_append.mp hv with hv | hv
              · have := hb v hv; omega
              · simp only [List.mem_singleton] at hv; omega
            · rw [if_neg hm] at hv
              have := hb v hv; omega
          · by_cases hm : (st.recordCount + 1) % 1000 = 0
            · rw [if_pos hm, List.pairwise_append]
              refine ⟨hp, by simp, ?_⟩
              intro a ha b hb2
              simp only [List.mem_singleton] at hb2
              have := hb a ha
              omega
            · rw [if_neg hm]; exact hp
    · rw [if_neg h3] at h
      exact LoopResult.noConfusion h

/-- C7. A progress checkpoint (`updateJobProgress`) writes the current
accepted-record count into the job's registry entry and changes nothing
else: other jobs' entries are untouched and every field of the job other
than `totalRecords` — `status` in particular — is preserved.  Moreover, on a
clean pass of the record loop the sequence of checkpointed values is exactly
the positive multiples of `batchSize` (1000) up to the final accepted count,
in strictly increasing order, so an observer of a single running job sees
the progress value only increase. -/
theorem progressCheckpoint_frame_and_monotone (R : Registry) (id id2 : String)
    (n : Nat) (r : ProcessingResult) (data : List (List String))
    (st2 : AggState) (v : Nat)
    (hdone : processRows data ⟨[], 0, []⟩ = .done st2) :
    (regLookup (applyOp R (.progress id n)) id2 =
      if id = id2 then
        (regLookup R id2).map fun r0 => { r0 with totalRecords := n }
      else regLookup R id2) ∧
    ({ r with totalRecords := n } : ProcessingResult).status = r.status ∧
    ({ r with totalRecords := n } : ProcessingResult).jobID = r.jobID ∧
    ({ r with totalRecords := n } : ProcessingResult).downloadURL =
      r.downloadURL ∧
    ({ r with totalRecords := n } : ProcessingResult).processingTime =
      r.processingTime ∧
    ({ r with totalRecords := n } : ProcessingResult).departmentCount =
      r.departmentCount ∧
    ({ r with totalRecords := n } : ProcessingResult).errorMsg = r.errorMsg ∧
    (v ∈ st2.progressEvents ↔
      v % 1000 = 0 ∧ 0 < v ∧ v ≤ st2.recordCount) ∧
    st2.progressEvents.Pairwise (· < ·) := by
  obtain ⟨hle, hmem, hsort⟩ := processRows_events_spec data ⟨[], 0, []⟩ st2 hdone
  refine ⟨regLookup_regUpdate R id id2 _, rfl, rfl, rfl, rfl, rfl, rfl, ?_, ?_⟩
  · rw [hmem v]
    simp only [List.not_mem_nil, false_or]
  · exact (hsort (by simp) (by simp)).1

/-- C7 witness: for a concrete one-row file the loop completes with a single
accepted record and an empty checkpoint list, and 1000 is correctly not among
the checkpoint values. -/
theorem progressCheckpoint_frame_and_monotone_witness :
    processRows [["Sales", "2024-01-01", "100"]] ⟨[], 0, []⟩ =
      .done ⟨[("Sales", 100)], 1, []⟩ ∧
    ((regLookup (applyOp [] (.progress "j" 5)) "j" =
       if "j" = "j" then
         (regLookup ([] : Registry) "j").map fun r0 =>
           { r0 with totalRecords := 5 }
       else regLookup ([] : Registry) "j") ∧
     ({ newJob "j" with totalRecords := 5 } : ProcessingResult).status =
       (newJob "j").status ∧
     ({ newJob "j" with totalRecords := 5 } : ProcessingResult).jobID =
       (newJob "j").jobID ∧
     ({ newJob "j" with totalRecords := 5 } : ProcessingResult).downloadURL =
       (newJob "j").downloadURL ∧
     ({ newJob "j" with totalRecords := 5 } : ProcessingResult).processingTime =
       (newJob "j").processingTime ∧
     ({ newJob "j" with totalRecords := 5 } : ProcessingResult).departmentCount =
       (newJob "j").departmentCount ∧
     ({ newJob "j" with totalRecords := 5 } : ProcessingResult).errorMsg =
       (newJob "j").errorMsg ∧
     (1000 ∈ (⟨[("Sales", 100)], 1, []⟩ : AggState).progressEvents ↔
       1000 % 1000 = 0 ∧ 0 < 1000 ∧
         1000 ≤ (⟨[("Sales", 100)], 1, []⟩ : AggState).recordCount) ∧
     (⟨[("Sales", 100)], 1, []⟩ : AggState).progressEvents.Pairwise (· < ·)) :=
  ⟨by decide,
   progressCheckpoint_frame_and_monotone [] "j" "j" 5 (newJob "j")
     [["Sales", "2024-01-01", "100"]] ⟨[("Sales", 100)], 1, []⟩ 1000
     (by decide)⟩

/-! ### Totals-map lemmas -/

lemma lookupTotals_addSale (T : List (String × Int)) (d c : String) (s : Int) :
    lookupTotals (addSale T d s) c =
      if d = c then some (wrap64 ((lookupTotals T c).getD 0 + s))
      else lookupTotals T c := by
  induction T with
  | nil =>
    simp only [addSale, lookupTotals]
    by_cases h : d = c <;> simp [h, lookupTotals]
  | cons hd rest ih =>
    obtain ⟨d0, t0⟩ := hd
    by_cases h0 : d0 = d
    · subst h0
      simp only [addSale, if_pos rfl, lookupTotals]
      by_cases h : d0 = c <;> simp [h, lookupTotals]
    · simp only [addSale, if_neg h0, lookupTotals]
      by_cases h : d0 = c
      · have hdc : ¬(d = c) := fun hh => h0 (h.trans hh.symm)
        simp [h, hdc]
      · simp [h, ih]

lemma keys_addSale (T : List (String × Int)) (d : String) (s : Int) :
    (addSale T d s).map Prod.fst =
      if d ∈ T.map Prod.fst then T.map Prod.fst
      else T.map Prod.fst ++ [d] := by
  induction T with
  | nil => simp [addSale]
  | cons hd rest ih =>
    obtain ⟨d0, t0⟩ := hd
    by_cases h0 : d0 = d
    · subst h0; simp [addSale]
    · have hne : d ≠ d0 := fun hh => h0 hh.symm
      simp only [addSale, if_neg h0, List.map_cons, ih]
      by_cases hmem : d ∈ rest.map Prod.fst
      · simp [hmem, hne]
      · simp [hmem, hne]

lemma mem_keys_addSale (T : List (String × Int)) (d c : String) (s : Int) :
    c ∈ (addSale T d s).map Prod.fst ↔ c ∈ T.map Prod.fst ∨ c = d := by
  rw [keys_addSale]
  by_cases h : d ∈ T.map Prod.fst
  · rw [if_pos h]
    exact ⟨Or.inl, fun hc => by
      rcases hc with hc | hc
      · exact hc
      · exact hc ▸ h⟩
  · rw [if_neg h]
    simp [List.mem_append]

lemma nodup_keys_addSale (T : List (String × Int)) (d : String) (s : Int)
    (hnd : (T.map Prod.fst).Nodup) :
    ((addSale T d s).map Prod.fst).Nodup := by
  rw [keys_addSale]
  by_cases h : d ∈ T.map Prod.fst
  · rw [if_pos h]; exact hnd
  · rw [if_neg h]
    rw [List.nodup_append]
    exact ⟨hnd, List.nodup_singleton d, by simpa using h⟩

/-! ### Category-sum lemmas -/

lemma hasDept_cons (r : List String) (rest : List (List String)) (c : String) :
    hasDept (r :: rest) c = ((deptOf r == c) || hasDept rest c) := by
  simp [hasDept]

lemma exactSum_cons (r : List String) (rest : List (List String)) (c : String) :
    exactSum (r :: rest) c =
      if deptOf r == c then countOf r + exactSum rest c
      else exactSum rest c := by
  simp only [exactSum, List.filter_cons]
  by_cases h : (deptOf r == c) = true
  · simp [h]
  · simp [h]

lemma exactSum_eq_zero (data : List (List String)) (c : String)
    (h : hasDept data c = false) : exactSum data c = 0 := by
  induction data with
  | nil => rfl
  | cons r rest ih =>
    rw [hasDept_cons, Bool.or_eq_false_iff] at h
    rw [exactSum_cons, if_neg (by simp [h.1]), ih h.2]

lemma hasDept_iff_mem_map (data : List (List String)) (c : String) :
    hasDept data c = true ↔ c ∈ data.map deptOf := by
  simp only [hasDept, List.any_eq_true, beq_iff_eq, List.mem_map]

/-! ### The well-formed run of the record loop -/

lemma processRows_wf (data : List (List String)) (st : AggState)
    (h3 : ∀ r ∈ data, r.length = 3)
    (hp : ∀ r ∈ data, (atoi (r.getD 2 "")).isSome = true) :
    ∃ st2, processRows data st = .done st2 ∧
      st2.recordCount = st.recordCount + data.length ∧
      (∀ c, lookupTotals st2.departmentTotals c =
        if hasDept data c then
          some (wrap64
            ((lookupTotals st.departmentTotals c).getD 0 + exactSum data c))
        else lookupTotals st.departmentTotals c) ∧
      (∀ x, x ∈ st2.departmentTotals.map Prod.fst ↔
        x ∈ st.departmentTotals.map Prod.fst ∨ hasDept data x = true) ∧
      ((st.departmentTotals.map Prod.fst).Nodup →
        (st2.departmentTotals.map Prod.fst).Nodup) := by
  induction data generalizing st with
  | nil =>
    refine ⟨st, rfl, by simp, fun c => ?_, fun x => ?_, fun h => h⟩
    · simp [hasDept]
    · simp [hasDept]
  | cons record rest ih =>
    have hr3 : record.length = 3 := h3 record (List.mem_cons_self _ _)
    have hrp := hp record (List.mem_cons_self _ _)
    cases hat : atoi (record.getD 2 "") with
    | none => rw [hat] at hrp; simp at hrp
    | some sales =>
      obtain ⟨st2, hrun, hcount, hlook, hmemk, hnd⟩ :=
        ih ⟨addSale st.departmentTotals (record.getD 0 "") sales,
            st.recordCount + 1,
            if (st.recordCount + 1) % 1000 = 0 then
              st.progressEvents ++ [st.recordCount + 1]
            else st.progressEvents⟩
          (fun r hr => h3 r (List.mem_cons_of_mem _ hr))
          (fun r hr => hp r (List.mem_cons_of_mem _ hr))
      simp only at hcount hlook hmemk hnd
      refine ⟨st2, ?_, ?_, ?_, ?_, ?_⟩
      · simp only [processRows, if_pos hr3, hat]; exact hrun
      · rw [hcount, List.length_cons]; omega
      · intro c
        have hLA := lookupTotals_addSale st.departmentTotals
          (record.getD 0 "") c sales
        have hco : countOf record = sales := by unfold countOf; rw [hat]; rfl
        rw [hlook c, hasDept_cons, exactSum_cons, hco]
        by_cases hdc : deptOf record = c
        · have hbeq : (deptOf record == c) = true := beq_iff_eq.mpr hdc
          rw [if_pos (show record.getD 0 "" = c from hdc)] at hLA
          by_cases hrest : hasDept rest c = true
          · rw [if_pos hrest, hLA]
            simp only [hbeq, Bool.true_or, Option.getD_some, wrap64_add_left]
            simp [add_assoc]
          · rw [if_neg hrest, hLA]
            rw [exactSum_eq_zero rest c (by simpa using hrest)]
            simp [hbeq]
        · have hbeq : (deptOf record == c) = false := by simp [hdc]
          rw [if_neg (show ¬record.getD 0 "" = c from hdc)] at hLA
          rw [hLA]
          simp [hbeq]
      · intro x
        rw [hmemk x, mem_keys_addSale, hasDept_cons]
        simp only [Bool.or_eq_true, beq_iff_eq]
        constructor
        · rintro ((hx | hx) | hx)
          · exact Or.inl hx
          · exact Or.inr (Or.inl hx.symm)
          · exact Or.inr (Or.inr hx)
        · rintro (hx | hx | hx)
          · exact Or.inl (Or.inl hx)
          · exact Or.inl (Or.inr hx.symm)
          · exact Or.inr hx
      · intro hnds
        exact hnd (nodup_keys_addSale _ _ _ hnds)

/-! ### Dropping non-parsing rows -/

lemma processRows_filter (data : List (List String)) (st : AggState)
    (h3 : ∀ r ∈ data, r.length = 3) :
    processRows data st =
      processRows (data.filter fun r => (atoi (r.getD 2 "")).isSome) st := by
  induction data generalizing st with
  | nil => rfl
  | cons record rest ih =>
    have hr3 : record.length = 3 := h3 record (List.mem_cons_self _ _)
    have hrest : ∀ r ∈ rest, r.length = 3 :=
      fun r hr => h3 r (List.mem_cons_of_mem _ hr)
    rw [List.filter_cons]
    cases hat : atoi (record.getD 2 "") with
    | none =>
      simp only [processRows, if_pos hr3, hat, Option.isSome_none,
        Bool.false_eq_true, if_false]
      exact ih st hrest
    | some sales =>
      simp only [processRows, if_pos hr3, hat, Option.isSome_some, if_true]
      exact ih _ hrest

lemma processCSVFile_done (header : List String) (data : List (List String))
    (st2 : AggState) (hh : header.length = 3)
    (hrun : processRows data ⟨[], 0, []⟩ = .done st2) :
    processCSVFile false false (header :: data) =
      ⟨.completed st2.departmentTotals st2.recordCount, st2.progressEvents,
        true, some (resultCSV st2.departmentTotals)⟩ := by
  simp [processCSVFile, hh, hrun]

/-- C1 counterexample: sums are 64-bit Go `int` additions, which wrap.  Two
rows of 9223372036854775807 for the same category complete with the stored
total -2, while the exact integer sum of the counts is 18446744073709551614
— so the output total is not the exact integer sum of the category's
counts. -/
theorem exactSum_overflow_counterexample :
    (processCSVFile false false
        [["Department Name", "Date", "Number of Sales"],
         ["Sales", "2024-01-01", "9223372036854775807"],
         ["Sales", "2024-01-02", "9223372036854775807"]]).terminal =
      Terminal.completed [("Sales", -2)] 2 ∧
    exactSum
        [["Sales", "2024-01-01", "9223372036854775807"],
         ["Sales", "2024-01-02", "9223372036854775807"]] "Sales" =
      18446744073709551614 ∧
    (-2 : Int) ≠ 18446744073709551614 :=
  ⟨by decide, by decide, by decide⟩

/-- C1 amended.  For a well-formed input (3-field header, every data row
with exactly 3 fields and a parsing count), the job completes with
`recordsAccepted` equal to the number of data rows, the input removed, the
artifact written from the final totals, `categoryCount` (the number of
totals entries) equal to the number of distinct categories, and each
category's stored total equal to the exact integer sum of its counts reduced
to the signed 64-bit range by two's-complement wrap (hence equal to the
exact sum whenever that sum fits in 64 bits); a header-only file completes
with an artifact holding the header row only. -/
theorem wellFormed_totals_amended (header : List String)
    (data : List (List String)) (c : String)
    (hh : header.length = 3)
    (h3 : ∀ r ∈ data, r.length = 3)
    (hp : ∀ r ∈ data, (atoi (r.getD 2 "")).isSome = true) :
    finalStatusOf (processCSVFile false false (header :: data)).terminal =
      "completed" ∧
    (processCSVFile false false (header :: data)).terminal =
      Terminal.completed
        (finalTotals (processCSVFile false false (header :: data)))
        data.length ∧
    (processCSVFile false false (header :: data)).inputRemoved = true ∧
    (processCSVFile false false (header :: data)).artifact =
      some (resultCSV
        (finalTotals (processCSVFile false false (header :: data)))) ∧
    lookupTotals (finalTotals (processCSVFile false false (header :: data)))
        c =
      (if hasDept data c then some (wrap64 (exactSum data c)) else none) ∧
    (finalTotals (processCSVFile false false (header :: data))).length =
      (data.map deptOf).dedup.length ∧
    (data = [] →
      (processCSVFile false false (header :: data)).artifact =
        some [["Department Name", "Total Number of Sales"]]) := by
  obtain ⟨st2, hrun, hcount, hlook, hmemk, hnd⟩ :=
    processRows_wf data ⟨[], 0, []⟩ h3 hp
  have hres : processCSVFile false false (header :: data) =
      ⟨.completed st2.departmentTotals st2.recordCount, st2.progressEvents,
        true, some (resultCSV st2.departmentTotals)⟩ := by
    simp [processCSVFile, hh, hrun]
  have hkn : (st2.departmentTotals.map Prod.fst).Nodup := hnd (by simp)
  have hms : ∀ x, x ∈ st2.departmentTotals.map Prod.fst ↔
      x ∈ data.map deptOf := by
    intro x
    rw [hmemk x, ← hasDept_iff_mem_map]
    simp
  have htf : (st2.departmentTotals.map Prod.fst).toFinset =
      (data.map deptOf).toFinset := by
    ext x
    simp only [List.mem_toFinset]
    exact hms x
  have hlen : st2.departmentTotals.length = (data.map deptOf).dedup.length := by
    calc st2.departmentTotals.length
        = (st2.departmentTotals.map Prod.fst).length :=
          (List.length_map _ _).symm
      _ = (st2.departmentTotals.map Prod.fst).toFinset.card :=
          (List.toFinset_card_of_nodup hkn).symm
      _ = (data.map deptOf).toFinset.card := by rw [htf]
      _ = (data.map deptOf).dedup.length := List.card_toFinset _
  rw [hres]
  refine ⟨rfl, ?_, rfl, rfl, ?_, ?_, ?_⟩
  · show Terminal.completed st2.departmentTotals st2.recordCount =
      Terminal.completed st2.departmentTotals data.length
    rw [hcount, Nat.zero_add]
  · show lookupTotals st2.departmentTotals c = _
    rw [hlook c]
    simp [lookupTotals]
  · exact hlen
  · intro hde
    subst hde
    have h2 : LoopResult.done (⟨[], 0, []⟩ : AggState) = .done st2 := hrun
    injection h2 with h2e
    rw [← h2e]
    rfl

/-- C1 witness: the worked example from the design notes — three data rows
over two categories — completes with 3 accepted records, 2 categories, and
the Sales total equal to the wrapped (here in-range, hence exact) sum 350. -/
theorem wellFormed_totals_amended_witness :
    (["Department Name", "Date", "Number of Sales"] : List String).length
        = 3 ∧
    (∀ r ∈ [["Sales", "2023-01-15", "150"], ["Marketing", "2023-01-15", "75"],
        ["Sales", "2023-01-16", "200"]], List.length r = 3) ∧
    (∀ r ∈ [["Sales", "2023-01-15", "150"], ["Marketing", "2023-01-15", "75"],
        ["Sales", "2023-01-16", "200"]],
      (atoi (r.getD 2 "")).isSome = true) ∧
    (finalStatusOf (processCSVFile false false
        (["Department Name", "Date", "Number of Sales"] ::
          [["Sales", "2023-01-15", "150"], ["Marketing", "2023-01-15", "75"],
           ["Sales", "2023-01-16", "200"]])).terminal = "completed" ∧
     (processCSVFile false false
        (["Department Name", "Date", "Number of Sales"] ::
          [["Sales", "2023-01-15", "150"], ["Marketing", "2023-01-15", "75"],
           ["Sales", "2023-01-16", "200"]])).terminal =
       Terminal.completed
         (finalTotals (processCSVFile false false
           (["Department Name", "Date", "Number of Sales"] ::
             [["Sales", "2023-01-15", "150"],
              ["Marketing", "2023-01-15", "75"],
              ["Sales", "2023-01-16", "200"]])))
         (List.length [["Sales", "2023-01-15", "150"],
            ["Marketing", "2023-01-15", "75"],
            ["Sales", "2023-01-16", "200"]]) ∧
     (processCSVFile false false
        (["Department Name", "Date", "Number of Sales"] ::
          [["Sales", "2023-01-15", "150"], ["Marketing", "2023-01-15", "75"],
           ["Sales", "2023-01-16", "200"]])).inputRemoved = true ∧
     (processCSVFile false false
        (["Department Name", "Date", "Number of Sales"] ::
          [["Sales", "2023-01-15", "150"], ["Marketing", "2023-01-15", "75"],
           ["Sales", "2023-01-16", "200"]])).artifact =
       some (resultCSV (finalTotals (processCSVFile false false
         (["Department Name", "Date", "Number of Sales"] ::
           [["Sales", "2023-01-15", "150"],
            ["Marketing", "2023-01-15", "75"],
            ["Sales", "2023-01-16", "200"]])))) ∧
     lookupTotals (finalTotals (processCSVFile false false
         (["Department Name", "Date", "Number of Sales"] ::
           [["Sales", "2023-01-15", "150"],
            ["Marketing", "2023-01-15", "75"],
            ["Sales", "2023-01-16", "200"]]))) "Sales" =
       (if hasDept [["Sales", "2023-01-15", "150"],
            ["Marketing", "2023-01-15", "75"],
            ["Sales", "2023-01-16", "200"]] "Sales" then
          some (wrap64 (exactSum [["Sales", "2023-01-15", "150"],
            ["Marketing", "2023-01-15", "75"],
            ["Sales", "2023-01-16", "200"]] "Sales"))
        else none) ∧
     (finalTotals (processCSVFile false false
         (["Department Name", "Date", "Number of Sales"] ::
           [["Sales", "2023-01-15", "150"],
            ["Marketing", "2023-01-15", "75"],
            ["Sales", "2023-01-16", "200"]]))).length =
       (List.map deptOf [["Sales", "2023-01-15", "150"],
          ["Marketing", "2023-01-15", "75"],
          ["Sales", "2023-01-16", "200"]]).dedup.length ∧
     ([["Sales", "2023-01-15", "150"], ["Marketing", "2023-01-15", "75"],
         ["Sales", "2023-01-16", "200"]] = ([] : List (List String)) →
       (processCSVFile false false
          (["Department Name", "Date", "Number of Sales"] ::
            [["Sales", "2023-01-15", "150"],
             ["Marketing", "2023-01-15", "75"],
             ["Sales", "2023-01-16", "200"]])).artifact =
         some [["Department Name", "Total Number of Sales"]])) :=
  ⟨by decide, by decide, by decide,
   wellFormed_totals_amended ["Department Name", "Date", "Number of Sales"]
     [["Sales", "2023-01-15", "150"], ["Marketing", "2023-01-15", "75"],
      ["Sales", "2023-01-16", "200"]] "Sales"
     (by decide) (by decide) (by decide)⟩

/-- C3. A 3-field row whose count does not parse is silently dropped: the
whole run equals the run on the file with the non-parsing rows removed (so
the dropped row contributes to no total and every other row is aggregated
exactly as if it were absent), the job still completes, and the accepted
count equals the number of parsing rows only. -/
theorem nonNumericRow_droppedSilently (header : List String)
    (data : List (List String)) (hh : header.length = 3)
    (h3 : ∀ r ∈ data, r.length = 3) :
    processCSVFile false false (header :: data) =
      processCSVFile false false
        (header :: data.filter fun r => (atoi (r.getD 2 "")).isSome) ∧
    finalStatusOf (processCSVFile false false (header :: data)).terminal =
      "completed" ∧
    (processCSVFile false false (header :: data)).terminal =
      Terminal.completed
        (finalTotals (processCSVFile false false (header :: data)))
        (data.filter fun r => (atoi (r.getD 2 "")).isSome).length := by
  have hfeq := processRows_filter data ⟨[], 0, []⟩ h3
  have hfl3 : ∀ r ∈ data.filter fun r => (atoi (r.getD 2 "")).isSome,
      r.length = 3 := fun r hr => h3 r (List.mem_of_mem_filter hr)
  have hflp : ∀ r ∈ data.filter fun r => (atoi (r.getD 2 "")).isSome,
      (atoi (r.getD 2 "")).isSome = true :=
    fun r hr => (List.mem_filter.mp hr).2
  obtain ⟨st2, hrun, hcount, _, _, _⟩ :=
    processRows_wf (data.filter fun r => (atoi (r.getD 2 "")).isSome)
      ⟨[], 0, []⟩ hfl3 hflp
  have hrun2 : processRows data ⟨[], 0, []⟩ = .done st2 := hfeq.trans hrun
  have hres : processCSVFile false false (header :: data) =
      ⟨.completed st2.departmentTotals st2.recordCount, st2.progressEvents,
        true, some (resultCSV st2.departmentTotals)⟩ :=
    processCSVFile_done header data st2 hh hrun2
  have hres2 : processCSVFile false false
      (header :: data.filter fun r => (atoi (r.getD 2 "")).isSome) =
      ⟨.completed st2.departmentTotals st2.recordCount, st2.progressEvents,
        true, some (resultCSV st2.departmentTotals)⟩ :=
    processCSVFile_done header _ st2 hh hrun
  refine ⟨hres.trans hres2.symm, by rw [hres]; rfl, ?_⟩
  rw [hres]
  show Terminal.completed st2.departmentTotals st2.recordCount =
    Terminal.completed st2.departmentTotals _
  rw [hcount, Nat.zero_add]

/-- C3 witness: a concrete file with one non-numeric count row aggregates
exactly like the file without it, completes, and accepts only the two
parsing rows. -/
theorem nonNumericRow_droppedSilently_witness :
    (["Department Name", "Date", "Number of Sales"] : List String).length
        = 3 ∧
    (∀ r ∈ [["Sales", "2024-01-01", "100"], ["Ops", "2024-01-01", "abc"],
        ["Sales", "2024-01-02", "50"]], List.length r = 3) ∧
    (processCSVFile false false
        (["Department Name", "Date", "Number of Sales"] ::
          [["Sales", "2024-01-01", "100"], ["Ops", "2024-01-01", "abc"],
           ["Sales", "2024-01-02", "50"]]) =
      processCSVFile false false
        (["Department Name", "Date", "Number of Sales"] ::
          ([["Sales", "2024-01-01", "100"], ["Ops", "2024-01-01", "abc"],
            ["Sales", "2024-01-02", "50"]].filter
            fun r => (atoi (r.getD 2 "")).isSome)) ∧
     finalStatusOf (processCSVFile false false
        (["Department Name", "Date", "Number of Sales"] ::
          [["Sales", "2024-01-01", "100"], ["Ops", "2024-01-01", "abc"],
           ["Sales", "2024-01-02", "50"]])).terminal = "completed" ∧
     (processCSVFile false false
        (["Department Name", "Date", "Number of Sales"] ::
          [["Sales", "2024-01-01", "100"], ["Ops", "2024-01-01", "abc"],
           ["Sales", "2024-01-02", "50"]])).terminal =
       Terminal.completed
         (finalTotals (processCSVFile false false
           (["Department Name", "Date", "Number of Sales"] ::
             [["Sales", "2024-01-01", "100"], ["Ops", "2024-01-01", "abc"],
              ["Sales", "2024-01-02", "50"]])))
         (([["Sales", "2024-01-01", "100"], ["Ops", "2024-01-01", "abc"],
            ["Sales", "2024-01-02", "50"]].filter
            fun r => (atoi (r.getD 2 "")).isSome)).length) :=
  ⟨by decide, by decide,
   nonNumericRow_droppedSilently
     ["Department Name", "Date", "Number of Sales"]
     [["Sales", "2024-01-01", "100"], ["Ops", "2024-01-01", "abc"],
      ["Sales", "2024-01-02", "50"]] (by decide) (by decide)⟩
